import Mathlib

/-!
Shallow embedding of `src/sync.js` (time-sync): reconciliation of billable
time-tracking entries with issue-tracker work-log items.  Text is modelled as
`List Char`; JS regular-expression matching is modelled by explicit character
scans; the reconciliation loop is modelled as a recursion producing the list
of per-entry decisions, the list of issued create calls, and an abort flag
(an uncaught JS exception).  Machine floats for durations are modelled by
exact rationals, which agrees with the source at the minute/second
granularities the specification requires.
-/

namespace TimeSync

/-- Character class `[a-z\d]` of the marker regexes in `extractInternalId`
(line 110) and the `assert.match` precondition (line 68). -/
def isLowerAlnum (c : Char) : Bool :=
  ('a' ≤ c && c ≤ 'z') || ('0' ≤ c && c ≤ '9')

/-- Character class `[A-Z0-9]` of the issue-key regex in `extractIssueId`
(line 104). -/
def isUpperAlnum (c : Char) : Bool :=
  ('A' ≤ c && c ≤ 'Z') || ('0' ≤ c && c ≤ '9')

/-- Character class `\d`. -/
def isDigitChar (c : Char) : Bool := '0' ≤ c && c ≤ '9'

/-- ASCII whitespace removed by `String.prototype.trim`. -/
def jsWhitespace (c : Char) : Bool :=
  c = ' ' || c = '\t' || c = '\n' || c = '\r' || c = '\x0b' || c = '\x0c'

/-- Drop leading whitespace, as the left half of `.trim()`. -/
def trimLeft (cs : List Char) : List Char := cs.dropWhile jsWhitespace

/-- Drop trailing whitespace, as the right half of `.trim()`. -/
def trimRight (cs : List Char) : List Char :=
  (cs.reverse.dropWhile jsWhitespace).reverse

/-- JS `text.trim()`. -/
def trimChars (cs : List Char) : List Char := trimRight (trimLeft cs)

/-- Attempt of the regex `\[([a-z\d]{24})]` at the head position of `cs`:
an opening bracket, exactly 24 lowercase-alphanumeric characters, then a
closing bracket; on success return the 24 captured characters. -/
def markerAt (cs : List Char) : Option (List Char) :=
  match cs with
  | [] => none
  | c :: rest =>
    if c = '[' ∧ (rest.take 24).length = 24 ∧ (rest.take 24).all isLowerAlnum = true
        ∧ (rest.drop 24).head? = some ']'
    then some (rest.take 24) else none

/-- Leftmost match of the regex `\[([a-z\d]{24})]`: try every start position
from the left, as the JS regex engine does. -/
def findMarker : List Char → Option (List Char)
  | [] => none
  | c :: rest =>
    match markerAt (c :: rest) with
    | some t => some t
    | none => findMarker rest

/-- Lines 109-113: `text.trim().match(/\[([a-z\d]{24})]/)`, returning the
captured group or null. -/
def extractInternalId (text : List Char) : Option (List Char) :=
  findMarker (trimChars text)

/-- Whether `description` satisfies the `assert.match(description,
/\[[a-z\d]{24}]/)` precondition of `postIssueWorkItem` (line 68); the `match`
there is applied to the raw description, without trimming. -/
def hasMarker (cs : List Char) : Bool := (findMarker cs).isSome

/-- Lines 103-107: `text.trim().match(/^([A-Z0-9]+-\d+)/)`.  The pattern is
anchored, so a match is a maximal nonempty run of `[A-Z0-9]`, a hyphen, then
a maximal nonempty run of digits (the character classes are disjoint from
the hyphen, so regex backtracking can never produce any other result). -/
def extractIssueId (text : List Char) : Option (List Char) :=
  let t := trimChars text
  let run := t.takeWhile isUpperAlnum
  if run.isEmpty then none
  else
    match t.drop run.length with
    | '-' :: rest =>
      let ds := rest.takeWhile isDigitChar
      if ds.isEmpty then none else some (run ++ '-' :: ds)
    | _ => none

/-- Entry identifiers produced by the time tracker have this shape: exactly
24 lowercase-alphanumeric characters (the shape required by the marker
regexes). -/
def isMarkerShape (cs : List Char) : Bool :=
  cs.length == 24 && cs.all isLowerAlnum

/-- Source duration value, as the parsed components of the ISO-8601 duration
string that `Temporal.Duration.from` receives on line 125. -/
structure Dur where
  hours : Nat
  minutes : Nat
  seconds : Nat
deriving DecidableEq

/-- Line 125: `Temporal.Duration.from(timeInterval.duration).total("minutes")`,
exact at minute and second granularity. -/
def Dur.totalMinutes (d : Dur) : ℚ :=
  (d.hours : ℚ) * 60 + (d.minutes : ℚ) + (d.seconds : ℚ) / 60

/-- Raw billable record from the time tracker (the fields of `billableEntry`
that `createTimeEntry` reads).  `tags` is the list of tag names, `task` the
task's name when a task with a name is attached, `start` the parsed instant
of `timeInterval.start` in epoch milliseconds, `duration` the parsed
components of `timeInterval.duration`; absent/falsy source fields are
`none`/`[]`. -/
structure BillableRecord where
  id : List Char
  description : List Char
  tags : List (List Char)
  task : Option (List Char)
  start : Option Int
  duration : Option Dur
deriving DecidableEq

/-- NormalizedEntry: the value built by `createTimeEntry` (lines 115-128). -/
structure NormalizedEntry where
  id : List Char
  description : List Char
  type : Option (List Char)
  issueId : Option (List Char)
  startDate : Option Int
  durationMinutes : Option ℚ
deriving DecidableEq

/-- Lines 115-128: `createTimeEntry`.  `type` is the first tag's name,
lower-cased and trimmed, with `|| null` turning an empty result into absence;
`issueId` applies `extractIssueId` to a truthy (nonempty) task name;
`startDate` and `durationMinutes` are absent when the source fields are
falsy. -/
def createTimeEntry (r : BillableRecord) : NormalizedEntry :=
  { id := r.id
    description := r.description
    type :=
      match r.tags.head? with
      | none => none
      | some n =>
        let s := trimChars (n.map Char.toLower)
        if s.isEmpty then none else some s
    issueId :=
      match r.task with
      | none => none
      | some t => if t.isEmpty then none else extractIssueId t
    startDate := r.start
    durationMinutes := r.duration.map Dur.totalMinutes }

/-- CLI options collected by commander (lines 163-174); `lastNDays` holds the
`parseInt` result when the flag was given. -/
structure SyncOptions where
  today : Bool := false
  yesterday : Bool := false
  lastNDays : Option Nat := none
  dryRun : Bool := false

/-- Milliseconds per day; in the UTC zone used on line 180, `startOfDay` and
day arithmetic are exact multiples of this. -/
def msPerDay : Int := 86400000

/-- `now.startOfDay()` for a UTC zoned date-time: truncate the epoch-ms
instant to midnight UTC. -/
def startOfDay (t : Int) : Int := t - t % msPerDay

/-- Lines 134-157: `getOptionDateRange`.  `--today` wins; otherwise a truthy
`lastNDays` (present and nonzero, since `0` and `NaN` are falsy in the JS
`if`) selects the last-N-days window; otherwise yesterday is the default. -/
def getOptionDateRange (now : Int) (o : SyncOptions) : Int × Int :=
  let today := startOfDay now
  if o.today then (today, today + msPerDay)
  else
    match o.lastNDays with
    | some n =>
      if n ≠ 0 then (today - (n : Int) * msPerDay, today)
      else (today - msPerDay, today)
    | none => (today - msPerDay, today)

/-- Work-log item fetched from the issue tracker; only its `text` field is
consumed by the marker indexing (the fetched `date` field is unused by the
logic). `text` is `none` when the API returns a null text. -/
structure WorkItem where
  text : Option (List Char)
deriving DecidableEq

/-- Page size `limit` of `getIssueWorkItems` (line 49). -/
def pageLimit : Nat := 5000

/-- Lines 46-62: the `while (true)` pagination loop of `getIssueWorkItems`.
`fetch skip` is the page returned for offset `skip`; `fuel` bounds the number
of iterations so that the potentially non-terminating loop is a total
function (`none` models non-termination within the allotted fuel).  On
success the result carries the accumulated items and the number of page
fetches performed. -/
def getIssueWorkItemsAux (fetch : Nat → List WorkItem) :
    Nat → Nat → Option (List WorkItem × Nat)
  | 0, _ => none
  | fuel + 1, skip =>
    let data := fetch skip
    if data.length < pageLimit then some (data, 1)
    else
      match getIssueWorkItemsAux fetch fuel (skip + pageLimit) with
      | some (rest, n) => some (data ++ rest, n + 1)
      | none => none

/-- `getIssueWorkItems`: run the pagination loop from offset 0. -/
def getIssueWorkItems (fetch : Nat → List WorkItem) (fuel : Nat) :
    Option (List WorkItem × Nat) :=
  getIssueWorkItemsAux fetch fuel 0

/-- Lines 205-209: per-issue marker indexing — map each item through
`extractInternalId(item.text || "")` and keep the matches (`filter(Boolean)`;
items without a marker are silently dropped). -/
def workItemMarkers (items : List WorkItem) : List (List Char) :=
  items.filterMap (fun it => extractInternalId (it.text.getD []))

/-- The work-type map built by `getAllWorkItemTypes`: lower-cased trimmed
category name to work-type id. -/
abbrev WorkTypeMap := List Char → Option (List Char)

/-- The per-issue marker index (`workItemsByIssueId`): issue id to the set of
markers already present under that issue, modelled as a list queried by
membership (JS `Set.has` on strings). -/
abbrev MarkerIndex := List Char → List (List Char)

/-- Issue-tracker backing state: the full list of work-log items attached to
each issue. -/
abbrev Tracker := List Char → List WorkItem

/-- Line 233: the Create description `` `${entry.description} [${entry.id}]` ``. -/
def mkDescription (desc id : List Char) : List Char :=
  desc ++ ' ' :: '[' :: (id ++ [']'])

/-- Payload of a create call (lines 232-240): `description`, `date`
(epoch ms from `startDate.getTime()`), `durationMinutes`, and `workTypeId`
present exactly when `entry.type` is present and mapped in the work-type
map. -/
structure CreatePayload where
  description : List Char
  date : Int
  durationMinutes : Option ℚ
  workTypeId : Option (List Char)
deriving DecidableEq

/-- Lines 232-240: build the create payload for an entry whose `startDate`
instant is `d`. -/
def mkPayload (wt : WorkTypeMap) (e : NormalizedEntry) (d : Int) : CreatePayload :=
  { description := mkDescription e.description e.id
    date := d
    durationMinutes := e.durationMinutes
    workTypeId := e.type.bind wt }

/-- Per-entry sync decision; `create` carries the target issue and the
payload. -/
inductive SyncDecision where
  | noIssue : SyncDecision
  | alreadySynced : SyncDecision
  | create : List Char → CreatePayload → SyncDecision
deriving DecidableEq

/-- Whether a decision is a Create decision. -/
def SyncDecision.isCreate : SyncDecision → Bool
  | .create _ _ => true
  | _ => false

/-- Lines 64-86: `postIssueWorkItem` — the `assert.match` precondition on the
description runs before the network post; a failed assertion throws
(`Except.error`), a passed one posts and succeeds. -/
def postIssueWorkItem (iss : List Char) (p : CreatePayload) : Except Unit Unit :=
  if hasMarker p.description then Except.ok () else Except.error ()

/-- Lines 214-240 (decision portion of the loop body): computing
`entry.startDate.toDateString()` on line 215 throws on a null `startDate`
before anything else; then absent `issueId` gives NoIssue, a marker hit in
the index gives AlreadySynced, and otherwise the Create payload of lines
232-240 is built. -/
def stepEntry (wt : WorkTypeMap) (idx : MarkerIndex) (e : NormalizedEntry) :
    Except Unit SyncDecision :=
  match e.startDate with
  | none => Except.error ()
  | some d =>
    match e.issueId with
    | none => Except.ok SyncDecision.noIssue
    | some iss =>
      if e.id ∈ idx iss then Except.ok SyncDecision.alreadySynced
      else Except.ok (SyncDecision.create iss (mkPayload wt e d))

/-- Result of running the reconciliation loop: per-entry decisions in order,
the create calls actually issued to the network in order, and whether the
run aborted on an uncaught exception (null `startDate` or a failed
`assert.match`). -/
structure RunResult where
  decisions : List SyncDecision
  posts : List (List Char × CreatePayload)
  aborted : Bool
deriving DecidableEq

/-- Lines 214-248: the `for` loop of `sync`.  A throwing entry aborts the
whole loop (no decision for it, nothing after it); a Create decision posts
through `postIssueWorkItem` unless `dryRun` is set, and a failed assertion
there likewise aborts. -/
def processEntries (wt : WorkTypeMap) (idx : MarkerIndex) (dryRun : Bool) :
    List NormalizedEntry → RunResult
  | [] => ⟨[], [], false⟩
  | e :: rest =>
    match stepEntry wt idx e with
    | Except.error _ => ⟨[], [], true⟩
    | Except.ok SyncDecision.noIssue =>
      let r := processEntries wt idx dryRun rest
      ⟨SyncDecision.noIssue :: r.decisions, r.posts, r.aborted⟩
    | Except.ok SyncDecision.alreadySynced =>
      let r := processEntries wt idx dryRun rest
      ⟨SyncDecision.alreadySynced :: r.decisions, r.posts, r.aborted⟩
    | Except.ok (SyncDecision.create iss p) =>
      if dryRun then
        let r := processEntries wt idx dryRun rest
        ⟨SyncDecision.create iss p :: r.decisions, r.posts, r.aborted⟩
      else
        match postIssueWorkItem iss p with
        | Except.error _ => ⟨[], [], true⟩
        | Except.ok _ =>
          let r := processEntries wt idx dryRun rest
          ⟨SyncDecision.create iss p :: r.decisions, (iss, p) :: r.posts, r.aborted⟩

/-- Lines 201-212: the marker index derived from the tracker state (with
`getIssueWorkItems` having fetched every item of each issue, as established
separately for the pagination loop). -/
def indexOf (tr : Tracker) : MarkerIndex := fun iss => workItemMarkers (tr iss)

/-- Effect of a run's create calls on the tracker state: each posted payload
becomes a work-log item whose text is the payload's description, appended
under its issue. -/
def applyPosts (tr : Tracker) (posts : List (List Char × CreatePayload)) : Tracker :=
  fun iss =>
    tr iss ++
      ((posts.filter (fun pr => decide (pr.1 = iss))).map
        (fun pr => WorkItem.mk (some pr.2.description)))

/-- One full run of `sync` over a fixed normalized entry list against tracker
state `tr`: build the marker index, then run the reconciliation loop. -/
def runSync (tr : Tracker) (wt : WorkTypeMap) (dryRun : Bool)
    (es : List NormalizedEntry) : RunResult :=
  processEntries wt (indexOf tr) dryRun es

/-! ### Lemmas about the marker regex -/

/-- A character accepted by `jsWhitespace` is one of the six ASCII whitespace
characters. -/
theorem jsWhitespace_spec (c : Char) (h : jsWhitespace c = true) :
    c = ' ' ∨ c = '\t' ∨ c = '\n' ∨ c = '\r' ∨ c = '\x0b' ∨ c = '\x0c' := by
  simp [jsWhitespace] at h
  tauto

/-- Whitespace is never an opening bracket. -/
theorem ws_not_lbracket {c : Char} (h : jsWhitespace c = true) : c ≠ '[' := by
  rcases jsWhitespace_spec c h with h' | h' | h' | h' | h' | h' <;> subst h' <;> decide

/-- Whitespace is never a closing bracket. -/
theorem ws_not_rbracket {c : Char} (h : jsWhitespace c = true) : c ≠ ']' := by
  rcases jsWhitespace_spec c h with h' | h' | h' | h' | h' | h' <;> subst h' <;> decide

/-- Whitespace is never lowercase alphanumeric. -/
theorem ws_not_lowerAlnum {c : Char} (h : jsWhitespace c = true) :
    isLowerAlnum c = false := by
  rcases jsWhitespace_spec c h with h' | h' | h' | h' | h' | h' <;> subst h' <;> decide

/-- The marker pattern matches at the head of a well-formed marker. -/
theorem markerAt_marker (id : List Char) (h24 : id.length = 24)
    (hall : id.all isLowerAlnum = true) :
    markerAt ('[' :: (id ++ [']'])) = some id := by
  have ht : (id ++ [']']).take 24 = id := List.take_left' h24
  have hd : (id ++ [']']).drop 24 = [']'] := List.drop_left' h24
  simp only [markerAt, ht, hd]
  exact if_pos ⟨trivial, h24, hall, rfl⟩

/-- Extending a failed head-position match with material whose first character
is neither lowercase alphanumeric nor a closing bracket cannot make it
succeed. -/
theorem markerAt_cons_append_none (c : Char) (t : List Char) (a : Char) (r : List Char)
    (ha1 : isLowerAlnum a = false) (ha2 : a ≠ ']')
    (h : markerAt (c :: t) = none) :
    markerAt (c :: (t ++ a :: r)) = none := by
  simp only [markerAt] at h ⊢
  split at h
  · simp at h
  · rename_i hC
    split
    · rename_i hC'
      obtain ⟨hc, hlen, hall, hhd⟩ := hC'
      exfalso
      rcases lt_trichotomy t.length 24 with hlt | heq | hgt
      · have htok : (t ++ a :: r).take 24 = t ++ (a :: r).take (24 - t.length) := by
          rw [List.take_append_eq_append_take, List.take_of_length_le (le_of_lt hlt)]
        have hmem : a ∈ (t ++ a :: r).take 24 := by
          rw [htok]
          refine List.mem_append_right _ ?_
          cases hk : 24 - t.length with
          | zero => omega
          | succ k => exact List.mem_cons_self _ _
        have := List.all_eq_true.mp hall a hmem
        rw [ha1] at this
        exact Bool.false_ne_true this
      · have hdr : (t ++ a :: r).drop 24 = a :: r := by
          rw [List.drop_append_eq_append_drop, List.drop_eq_nil_of_le (le_of_eq heq),
            heq]
          simp
        rw [hdr] at hhd
        simp only [List.head?_cons, Option.some.injEq] at hhd
        exact ha2 hhd
      · have htk : (t ++ a :: r).take 24 = t.take 24 := by
          rw [List.take_append_eq_append_take]
          have h0 : 24 - t.length = 0 := by omega
          rw [h0]
          simp
        have hdr : (t ++ a :: r).drop 24 = t.drop 24 ++ a :: r := by
          rw [List.drop_append_eq_append_drop]
          have h0 : 24 - t.length = 0 := by omega
          rw [h0]
          simp
        apply hC
        refine ⟨hc, ?_, ?_, ?_⟩
        · rw [htk] at hlen
          exact hlen
        · rw [htk] at hall
          exact hall
        · rw [hdr, List.head?_append] at hhd
          cases hq : (t.drop 24).head? with
          | none =>
            exfalso
            rw [hq] at hhd
            simp only [Option.none_or, List.head?_cons, Option.some.injEq] at hhd
            exact ha2 hhd
          | some x =>
            rw [hq] at hhd
            simp at hhd
            rw [hhd]
    · rfl

/-- If a string has no marker match, neither does any of its suffixes
obtained by removing a prefix that the whole-string scan already rejected. -/
theorem findMarker_append_none_right (l m : List Char)
    (h : findMarker (l ++ m) = none) : findMarker m = none := by
  induction l with
  | nil => exact h
  | cons c t ih =>
    rw [List.cons_append] at h
    cases hma : markerAt (c :: (t ++ m)) with
    | some v =>
      simp only [findMarker, hma] at h
      exact Option.noConfusion h
    | none =>
      simp only [findMarker, hma] at h
      exact ih h

/-- Scanning past a match-free prefix: if `l` has no match, scanning `l ++ a :: r`
is scanning `a :: r`, provided the junction character `a` can neither continue
nor close a candidate started inside `l`. -/
theorem findMarker_append (l : List Char) (a : Char) (r : List Char)
    (ha1 : isLowerAlnum a = false) (ha2 : a ≠ ']')
    (h : findMarker l = none) :
    findMarker (l ++ a :: r) = findMarker (a :: r) := by
  induction l with
  | nil => rfl
  | cons c t ih =>
    have hma : markerAt (c :: t) = none := by
      cases hx : markerAt (c :: t) with
      | some v =>
        simp only [findMarker, hx] at h
        exact h
      | none => rfl
    have ht : findMarker t = none := by
      simpa only [findMarker, hma] using h
    have hext : markerAt (c :: (t ++ a :: r)) = none :=
      markerAt_cons_append_none c t a r ha1 ha2 hma
    rw [List.cons_append]
    simp only [findMarker, hext]
    exact ih ht

/-- Prepending whitespace does not change the scan result: whitespace can
never open a marker. -/
theorem findMarker_ws_append (w y : List Char)
    (hw : ∀ c ∈ w, jsWhitespace c = true) :
    findMarker (w ++ y) = findMarker y := by
  induction w with
  | nil => rfl
  | cons c t ih =>
    have hc : c ≠ '[' := ws_not_lbracket (hw c (List.mem_cons_self _ _))
    have hma : markerAt (c :: (t ++ y)) = none := by
      simp only [markerAt]
      rw [if_neg]
      rintro ⟨h1, -⟩
      exact hc h1
    rw [List.cons_append]
    simp only [findMarker, hma]
    exact ih fun c' hc' => hw c' (List.mem_cons_of_mem _ hc')

/-- An all-whitespace string has no marker. -/
theorem findMarker_all_ws (w : List Char) (hw : ∀ c ∈ w, jsWhitespace c = true) :
    findMarker w = none := by
  have := findMarker_ws_append w [] hw
  simpa using this

/-- Appending whitespace to a match-free string keeps it match-free. -/
theorem findMarker_append_ws (y w : List Char)
    (hw : ∀ c ∈ w, jsWhitespace c = true) (h : findMarker y = none) :
    findMarker (y ++ w) = none := by
  cases w with
  | nil => simpa using h
  | cons a r =>
    have ha : jsWhitespace a = true := hw a (List.mem_cons_self _ _)
    rw [findMarker_append y a r (ws_not_lowerAlnum ha) (ws_not_rbracket ha) h]
    exact findMarker_all_ws (a :: r) hw

/-- Decomposition of a string as its right-trim plus trailing whitespace. -/
theorem trimRight_decomp (x : List Char) :
    ∃ w, (∀ c ∈ w, jsWhitespace c = true) ∧ x = trimRight x ++ w := by
  refine ⟨(x.reverse.takeWhile jsWhitespace).reverse, ?_, ?_⟩
  · intro c hc
    rw [List.mem_reverse] at hc
    exact List.mem_takeWhile_imp hc
  · unfold trimRight
    conv_lhs => rw [← List.reverse_reverse x,
      ← List.takeWhile_append_dropWhile (p := jsWhitespace) (l := x.reverse)]
    rw [List.reverse_append]

/-- A match-free right-trim means the original string is match-free. -/
theorem findMarker_trimRight_none (x : List Char)
    (h : findMarker (trimRight x) = none) : findMarker x = none := by
  obtain ⟨w, hw, hx⟩ := trimRight_decomp x
  rw [hx]
  exact findMarker_append_ws _ w hw h

/-- A match-free left-trim means the original string is match-free. -/
theorem findMarker_trimLeft_none (x : List Char)
    (h : findMarker (trimLeft x) = none) : findMarker x = none := by
  conv_lhs => rw [← List.takeWhile_append_dropWhile (p := jsWhitespace) (l := x)]
  rw [findMarker_ws_append _ _ fun c hc => List.mem_takeWhile_imp hc]
  exact h

/-- A string on which `extractInternalId` finds nothing has no marker match
at all, trimmed or not. -/
theorem findMarker_of_extract_none (x : List Char)
    (h : extractInternalId x = none) : findMarker x = none :=
  findMarker_trimLeft_none x (findMarker_trimRight_none (trimLeft x) h)

/-- Right-trimming a string that ends in a closing bracket is the identity. -/
theorem trimRight_append_rb (m : List Char) :
    trimRight (m ++ [']']) = m ++ [']'] := by
  unfold trimRight
  rw [List.reverse_append]
  simp only [List.reverse_cons, List.reverse_nil, List.nil_append, List.cons_append,
    List.dropWhile_cons]
  rw [if_neg (by decide)]
  simp

/-- Scanning a match-free prefix followed by a space and a well-formed marker
finds exactly that marker. -/
theorem findMarker_marker_suffix (y id : List Char) (h24 : id.length = 24)
    (hall : id.all isLowerAlnum = true) (hy : findMarker y = none) :
    findMarker (y ++ ' ' :: '[' :: (id ++ [']'])) = some id := by
  rw [findMarker_append y ' ' _ (by decide) (by decide) hy]
  have hsp : markerAt (' ' :: ('[' :: (id ++ [']']))) = none := by
    simp only [markerAt]
    rw [if_neg]
    rintro ⟨h1, -⟩
    exact absurd h1 (by decide)
  simp only [findMarker, hsp, markerAt_marker id h24 hall]

/-- The two components of `isMarkerShape`. -/
theorem isMarkerShape_spec {id : List Char} (h : isMarkerShape id = true) :
    id.length = 24 ∧ id.all isLowerAlnum = true := by
  simpa [isMarkerShape] using h

/-- Marker round-trip for marker-free descriptions: extraction on the built
Create description recovers the entry id. -/
theorem extract_mkDescription (desc id : List Char)
    (hid : isMarkerShape id = true)
    (hdesc : extractInternalId desc = none) :
    extractInternalId (mkDescription desc id) = some id := by
  obtain ⟨h24, hall⟩ := isMarkerShape_spec hid
  have hfd : findMarker (trimLeft desc) = none :=
    findMarker_trimRight_none (trimLeft desc) hdesc
  unfold extractInternalId trimChars mkDescription
  unfold trimLeft
  rw [List.dropWhile_append]
  split
  · rename_i hemp
    have hws : List.dropWhile jsWhitespace (' ' :: '[' :: (id ++ [']']))
        = '[' :: (id ++ [']']) := by
      rw [List.dropWhile_cons, if_pos (by decide), List.dropWhile_cons,
        if_neg (by decide)]
    rw [hws]
    have hsh : ('[' :: (id ++ [']'])) = ('[' :: id) ++ [']'] := by simp
    rw [hsh, trimRight_append_rb, ← hsh]
    simp only [findMarker, markerAt_marker id h24 hall]
  · rename_i hemp
    have hsh : List.dropWhile jsWhitespace desc ++ ' ' :: '[' :: (id ++ [']'])
        = (List.dropWhile jsWhitespace desc ++ ' ' :: '[' :: id) ++ [']'] := by
      simp
    rw [hsh, trimRight_append_rb, ← hsh]
    exact findMarker_marker_suffix _ id h24 hall hfd

/-- With a shape-correct entry id, the built Create description always
satisfies the posting precondition, whatever the description holds. -/
theorem hasMarker_mkDescription (desc id : List Char)
    (hid : isMarkerShape id = true) :
    hasMarker (mkDescription desc id) = true := by
  obtain ⟨h24, hall⟩ := isMarkerShape_spec hid
  unfold hasMarker
  cases hfm : findMarker (mkDescription desc id) with
  | some v => rfl
  | none =>
    exfalso
    have h1 : findMarker (' ' :: '[' :: (id ++ [']'])) = none :=
      findMarker_append_none_right desc _ hfm
    have h2 : findMarker (([] : List Char) ++ ' ' :: '[' :: (id ++ [']'])) = some id :=
      findMarker_marker_suffix [] id h24 hall rfl
    rw [List.nil_append, h1] at h2
    exact Option.noConfusion h2

/-! ### Unfolding lemmas for the reconciliation loop -/

/-- A null `startDate` throws in the loop body. -/
theorem stepEntry_none {wt : WorkTypeMap} {idx : MarkerIndex} {e : NormalizedEntry}
    (he : e.startDate = none) : stepEntry wt idx e = Except.error () := by
  simp [stepEntry, he]

/-- Entry with a date but no issue id: NoIssue. -/
theorem stepEntry_noIssue {wt : WorkTypeMap} {idx : MarkerIndex} {e : NormalizedEntry}
    {d : Int} (hd : e.startDate = some d) (hii : e.issueId = none) :
    stepEntry wt idx e = Except.ok SyncDecision.noIssue := by
  simp [stepEntry, hd, hii]

/-- Entry whose id is already in the marker set of its issue: AlreadySynced. -/
theorem stepEntry_skip {wt : WorkTypeMap} {idx : MarkerIndex} {e : NormalizedEntry}
    {d : Int} {iss : List Char} (hd : e.startDate = some d)
    (hii : e.issueId = some iss) (hmem : e.id ∈ idx iss) :
    stepEntry wt idx e = Except.ok SyncDecision.alreadySynced := by
  simp [stepEntry, hd, hii, hmem]

/-- Entry with an issue id and no marker hit: Create with the built payload. -/
theorem stepEntry_create {wt : WorkTypeMap} {idx : MarkerIndex} {e : NormalizedEntry}
    {d : Int} {iss : List Char} (hd : e.startDate = some d)
    (hii : e.issueId = some iss) (hmem : e.id ∉ idx iss) :
    stepEntry wt idx e = Except.ok (SyncDecision.create iss (mkPayload wt e d)) := by
  simp [stepEntry, hd, hii, hmem]

/-- Inversion: a Create decision can only arise from the Create branch, and
its payload is the built one. -/
theorem stepEntry_create_inv {wt : WorkTypeMap} {idx : MarkerIndex}
    {e : NormalizedEntry} {iss : List Char} {p : CreatePayload}
    (h : stepEntry wt idx e = Except.ok (SyncDecision.create iss p)) :
    ∃ d, e.startDate = some d ∧ e.issueId = some iss ∧ e.id ∉ idx iss
      ∧ p = mkPayload wt e d := by
  cases hsd : e.startDate with
  | none =>
    rw [stepEntry_none hsd] at h
    exact Except.noConfusion h
  | some d =>
    cases hii : e.issueId with
    | none =>
      rw [stepEntry_noIssue hsd hii] at h
      simp at h
    | some iss' =>
      by_cases hmem : e.id ∈ idx iss'
      · rw [stepEntry_skip hsd hii hmem] at h
        simp at h
      · rw [stepEntry_create hsd hii hmem] at h
        simp only [Except.ok.injEq, SyncDecision.create.injEq] at h
        obtain ⟨h1, h2⟩ := h
        subst h1
        exact ⟨d, rfl, rfl, hmem, h2.symm⟩

/-- Loop unfolding: a throwing entry aborts with no decision and no post. -/
theorem processEntries_cons_error {wt : WorkTypeMap} {idx : MarkerIndex}
    {dry : Bool} {e : NormalizedEntry} {rest : List NormalizedEntry}
    (h : stepEntry wt idx e = Except.error ()) :
    processEntries wt idx dry (e :: rest) = ⟨[], [], true⟩ := by
  simp [processEntries, h]

/-- Loop unfolding: a NoIssue entry is logged and skipped. -/
theorem processEntries_cons_noIssue {wt : WorkTypeMap} {idx : MarkerIndex}
    {dry : Bool} {e : NormalizedEntry} {rest : List NormalizedEntry}
    (h : stepEntry wt idx e = Except.ok SyncDecision.noIssue) :
    processEntries wt idx dry (e :: rest) =
      ⟨SyncDecision.noIssue :: (processEntries wt idx dry rest).decisions,
       (processEntries wt idx dry rest).posts,
       (processEntries wt idx dry rest).aborted⟩ := by
  simp [processEntries, h]

/-- Loop unfolding: an AlreadySynced entry is logged and skipped. -/
theorem processEntries_cons_alreadySynced {wt : WorkTypeMap} {idx : MarkerIndex}
    {dry : Bool} {e : NormalizedEntry} {rest : List NormalizedEntry}
    (h : stepEntry wt idx e = Except.ok SyncDecision.alreadySynced) :
    processEntries wt idx dry (e :: rest) =
      ⟨SyncDecision.alreadySynced :: (processEntries wt idx dry rest).decisions,
       (processEntries wt idx dry rest).posts,
       (processEntries wt idx dry rest).aborted⟩ := by
  simp [processEntries, h]

/-- Loop unfolding: a Create entry in dry-run mode is logged without a post. -/
theorem processEntries_cons_create_dry {wt : WorkTypeMap} {idx : MarkerIndex}
    {e : NormalizedEntry} {rest : List NormalizedEntry} {iss : List Char}
    {p : CreatePayload}
    (h : stepEntry wt idx e = Except.ok (SyncDecision.create iss p)) :
    processEntries wt idx true (e :: rest) =
      ⟨SyncDecision.create iss p :: (processEntries wt idx true rest).decisions,
       (processEntries wt idx true rest).posts,
       (processEntries wt idx true rest).aborted⟩ := by
  simp [processEntries, h]

/-- Loop unfolding: a live Create entry whose payload passes the assertion is
posted and logged. -/
theorem processEntries_cons_create_live {wt : WorkTypeMap} {idx : MarkerIndex}
    {e : NormalizedEntry} {rest : List NormalizedEntry} {iss : List Char}
    {p : CreatePayload}
    (h : stepEntry wt idx e = Except.ok (SyncDecision.create iss p))
    (hp : hasMarker p.description = true) :
    processEntries wt idx false (e :: rest) =
      ⟨SyncDecision.create iss p :: (processEntries wt idx false rest).decisions,
       (iss, p) :: (processEntries wt idx false rest).posts,
       (processEntries wt idx false rest).aborted⟩ := by
  simp [processEntries, h, postIssueWorkItem, hp]

/-- Loop unfolding: a live Create entry whose payload fails the assertion
aborts the run before the post. -/
theorem processEntries_cons_create_fail {wt : WorkTypeMap} {idx : MarkerIndex}
    {e : NormalizedEntry} {rest : List NormalizedEntry} {iss : List Char}
    {p : CreatePayload}
    (h : stepEntry wt idx e = Except.ok (SyncDecision.create iss p))
    (hp : hasMarker p.description = false) :
    processEntries wt idx false (e :: rest) = ⟨[], [], true⟩ := by
  simp [processEntries, h, postIssueWorkItem, hp]

/-! ### Concrete fixtures used by witnesses and counterexamples -/

/-- Empty work-type map. -/
def wtEmpty : WorkTypeMap := fun _ => none

/-- Empty marker index. -/
def idxEmpty : MarkerIndex := fun _ => []

/-- Issue tracker with no work items. -/
def trEmpty : Tracker := fun _ => []

/-- A well-formed entry: shape-correct id, marker-free description, an issue
and a start instant. -/
def goodEntry : NormalizedEntry :=
  { id := "a1b2c3d4e5f6a7b8c9d0e1f2".toList
    description := "review work".toList
    type := none
    issueId := some "AB-1".toList
    startDate := some 0
    durationMinutes := some 90 }

/-- An entry whose `startDate` is absent (and which has no issue either). -/
def noStartEntry : NormalizedEntry :=
  { id := "a1b2c3d4e5f6a7b8c9d0e1f2".toList
    description := "orphan".toList
    type := none
    issueId := none
    startDate := none
    durationMinutes := none }

/-- An entry whose id does not have the 24-character marker shape. -/
def badIdEntry : NormalizedEntry :=
  { id := "x".toList
    description := "short id".toList
    type := none
    issueId := some "AB-1".toList
    startDate := some 0
    durationMinutes := none }

/-- An entry whose description itself contains a bracketed 24-character
lowercase-alphanumeric token foreign to its id. -/
def foreignMarkerEntry : NormalizedEntry :=
  { id := "000000000000000000000000".toList
    description := "[abcdefghijklmnopqrstuvwx]".toList
    type := none
    issueId := some "AB-1".toList
    startDate := some 0
    durationMinutes := none }

/-! ### Claim C3: extraction round-trip -/

/-- C3, counterexample to the claim as stated: the entryId
`000000000000000000000000` has the 24-character lowercase-alphanumeric shape,
yet for the description `[abcdefghijklmnopqrstuvwx]` the round-trip through
the Create description format returns the description's own embedded token,
not the entryId — `match` finds the leftmost bracketed token. -/
theorem marker_roundtrip_cex :
    isMarkerShape "000000000000000000000000".toList = true
  ∧ extractInternalId (mkDescription "[abcdefghijklmnopqrstuvwx]".toList
      "000000000000000000000000".toList)
      ≠ some "000000000000000000000000".toList := by
  constructor
  · decide
  · decide

/-- C3 (amended): for every entryId of the 24-character lowercase-alphanumeric
shape and every description in which the bracketed-marker pattern does not
occur (marker extraction on the description yields nothing), building the
Create description and extracting from it yields back the entryId. -/
theorem marker_roundtrip (desc id : List Char) (hid : isMarkerShape id = true)
    (hdesc : extractInternalId desc = none) :
    extractInternalId (mkDescription desc id) = some id :=
  extract_mkDescription desc id hid hdesc

/-- C3 witness: the round-trip at a concrete marker-free description. -/
theorem marker_roundtrip_witness :
    extractInternalId (mkDescription "review work".toList
      "a1b2c3d4e5f6a7b8c9d0e1f2".toList) = some "a1b2c3d4e5f6a7b8c9d0e1f2".toList :=
  marker_roundtrip "review work".toList "a1b2c3d4e5f6a7b8c9d0e1f2".toList
    (by decide) (by decide)

/-! ### Claim C4: the normalizer never raises, absent inputs give absent fields -/

/-- C4: normalization is a total function on billable records — records with
missing tags, missing task label, missing start, or missing duration yield a
`NormalizedEntry` whose corresponding field is simply absent. -/
theorem normalizer_absent_fields (r : BillableRecord) :
    (r.tags = [] → (createTimeEntry r).type = none)
  ∧ (r.task = none → (createTimeEntry r).issueId = none)
  ∧ (r.start = none → (createTimeEntry r).startDate = none)
  ∧ (r.duration = none → (createTimeEntry r).durationMinutes = none) := by
  refine ⟨?_, ?_, ?_, ?_⟩ <;> intro h <;> simp [createTimeEntry, h]

/-- C4 witness: the fully-absent record normalizes with every derived field
absent. -/
theorem normalizer_absent_fields_witness :
    (createTimeEntry ⟨"id1".toList, "d".toList, [], none, none, none⟩).type = none
  ∧ (createTimeEntry ⟨"id1".toList, "d".toList, [], none, none, none⟩).issueId = none
  ∧ (createTimeEntry ⟨"id1".toList, "d".toList, [], none, none, none⟩).startDate = none
  ∧ (createTimeEntry ⟨"id1".toList, "d".toList, [], none, none, none⟩).durationMinutes = none := by
  obtain ⟨h1, h2, h3, h4⟩ :=
    normalizer_absent_fields ⟨"id1".toList, "d".toList, [], none, none, none⟩
  exact ⟨h1 rfl, h2 rfl, h3 rfl, h4 rfl⟩

/-! ### Claim C6: date-range selection -/

/-- Epoch milliseconds of 2024-03-12T00:00:00Z (day 19794 since epoch). -/
def ms20240312 : Int := 19794 * msPerDay

/-- Epoch milliseconds of 2024-03-14T00:00:00Z (day 19796 since epoch). -/
def ms20240314 : Int := 19796 * msPerDay

/-- Epoch milliseconds of 2024-03-15T00:00:00Z (day 19797 since epoch). -/
def ms20240315 : Int := 19797 * msPerDay

/-- Epoch milliseconds of 2024-03-16T00:00:00Z (day 19798 since epoch). -/
def ms20240316 : Int := 19798 * msPerDay

/-- Epoch milliseconds of the reference instant 2024-03-15T10:00:00Z. -/
def msNow20240315T10 : Int := ms20240315 + 36000000

/-- C6: for now = 2024-03-15T10:00:00Z, `--today` selects
[2024-03-15T00:00Z, 2024-03-16T00:00Z), the default (yesterday) selects
[2024-03-14T00:00Z, 2024-03-15T00:00Z), and `--last-n-days 3` selects
[2024-03-12T00:00Z, 2024-03-15T00:00Z); all boundaries are UTC midnights. -/
theorem date_range_scenarios :
    getOptionDateRange msNow20240315T10 { today := true } = (ms20240315, ms20240316)
  ∧ getOptionDateRange msNow20240315T10 {} = (ms20240314, ms20240315)
  ∧ getOptionDateRange msNow20240315T10 { lastNDays := some 3 }
      = (ms20240312, ms20240315) := by
  refine ⟨?_, ?_, ?_⟩ <;> decide

/-! ### Claim C7: duration conversion -/

/-- C7: normalization converts durations to total minutes exactly at minute
and second granularity (1 hour 30 minutes gives 90; 45 seconds gives 3/4),
an absent source duration gives an absent `durationMinutes`, and a present
`durationMinutes` is never negative. -/
theorem duration_conversion (r : BillableRecord) :
    (r.duration = some ⟨1, 30, 0⟩ → (createTimeEntry r).durationMinutes = some 90)
  ∧ (r.duration = some ⟨0, 0, 45⟩ →
      (createTimeEntry r).durationMinutes = some (3 / 4 : ℚ))
  ∧ (r.duration = none → (createTimeEntry r).durationMinutes = none)
  ∧ (∀ q : ℚ, (createTimeEntry r).durationMinutes = some q → 0 ≤ q) := by
  refine ⟨?_, ?_, ?_, ?_⟩
  · intro h
    simp [createTimeEntry, h, Dur.totalMinutes]
    norm_num
  · intro h
    simp [createTimeEntry, h, Dur.totalMinutes]
    norm_num
  · intro h
    simp [createTimeEntry, h]
  · intro q h
    simp only [createTimeEntry, Option.map_eq_some'] at h
    obtain ⟨dur, _, hq⟩ := h
    rw [← hq]
    unfold Dur.totalMinutes
    positivity

/-- C7 witness: the conversions at the two concrete durations, and the
nonnegativity at the first of them. -/
theorem duration_conversion_witness :
    (createTimeEntry ⟨"i".toList, "d".toList, [], none, none, some ⟨1, 30, 0⟩⟩).durationMinutes
        = some 90
  ∧ (createTimeEntry ⟨"i".toList, "d".toList, [], none, none, some ⟨0, 0, 45⟩⟩).durationMinutes
        = some (3 / 4 : ℚ)
  ∧ (0 : ℚ) ≤ 90 := by
  refine ⟨(duration_conversion _).1 rfl, (duration_conversion _).2.1 rfl, ?_⟩
  exact (duration_conversion ⟨"i".toList, "d".toList, [], none, none, some ⟨1, 30, 0⟩⟩).2.2.2
    90 ((duration_conversion _).1 rfl)

/-! ### Claim C8: create precondition check -/

/-- C8: a live create call checks the bracketed-marker pattern on the payload
description and aborts (raises) when it fails, before any network post; and
when the entry's id has the 24-character shape, any Create payload the
decision step produces passes the check, so the error branch is
unreachable. -/
theorem post_precondition :
    (∀ iss p, hasMarker p.description = false →
      postIssueWorkItem iss p = Except.error ())
  ∧ (∀ (wt : WorkTypeMap) (idx : MarkerIndex) (e : NormalizedEntry) iss p,
      isMarkerShape e.id = true →
      stepEntry wt idx e = Except.ok (SyncDecision.create iss p) →
      postIssueWorkItem iss p = Except.ok ()) := by
  constructor
  · intro iss p h
    simp [postIssueWorkItem, h]
  · intro wt idx e iss p hshape hstep
    obtain ⟨d, _, _, _, hp⟩ := stepEntry_create_inv hstep
    subst hp
    simp [postIssueWorkItem, mkPayload, hasMarker_mkDescription _ _ hshape]

/-- C8 witness: a marker-free payload is rejected; the payload built for a
shape-correct entry is posted. -/
theorem post_precondition_witness :
    postIssueWorkItem "AB-1".toList ⟨"no marker here".toList, 0, none, none⟩
        = Except.error ()
  ∧ postIssueWorkItem "AB-1".toList (mkPayload wtEmpty goodEntry 0)
        = Except.ok () := by
  constructor
  · exact post_precondition.1 "AB-1".toList _ (by decide)
  · exact post_precondition.2 wtEmpty idxEmpty goodEntry "AB-1".toList
      (mkPayload wtEmpty goodEntry 0) (by decide) (by rfl)

/-! ### Claim C2: per-entry decision algorithm -/

/-- An entry with a start instant but no issue association. -/
def noIssueEntry : NormalizedEntry :=
  { id := "a1b2c3d4e5f6a7b8c9d0e1f2".toList
    description := "no task".toList
    type := none
    issueId := none
    startDate := some 5
    durationMinutes := none }

/-- A marker index already holding `goodEntry`'s id for every issue. -/
def idxWithGood : MarkerIndex := fun _ => ["a1b2c3d4e5f6a7b8c9d0e1f2".toList]

/-- C2, counterexample to the claim as stated: for an entry with absent
issueId whose startDate is also absent, the loop body throws on the display
date before the issueId check, so the decision is not NoIssue. -/
theorem decision_missing_start_cex :
    stepEntry wtEmpty idxEmpty noStartEntry ≠ Except.ok SyncDecision.noIssue := by
  rw [stepEntry_none (by rfl)]
  intro h
  exact Except.noConfusion h

/-- C2 (amended): for every normalized entry whose startDate is present,
absent issueId gives NoIssue (and no create call), a marker hit gives
AlreadySynced (and no create call), and otherwise the decision is Create
with description = description, space, bracketed entryId; date = startDate;
duration = durationMinutes; and workTypeId present exactly when the category
is present and mapped. -/
theorem decision_algorithm (wt : WorkTypeMap) (idx : MarkerIndex)
    (e : NormalizedEntry) (d : Int) (hd : e.startDate = some d) :
    (e.issueId = none → stepEntry wt idx e = Except.ok SyncDecision.noIssue
      ∧ ∀ dry rest, (processEntries wt idx dry (e :: rest)).posts
          = (processEntries wt idx dry rest).posts)
  ∧ (∀ iss, e.issueId = some iss → e.id ∈ idx iss →
      stepEntry wt idx e = Except.ok SyncDecision.alreadySynced
      ∧ ∀ dry rest, (processEntries wt idx dry (e :: rest)).posts
          = (processEntries wt idx dry rest).posts)
  ∧ (∀ iss, e.issueId = some iss → e.id ∉ idx iss →
      stepEntry wt idx e = Except.ok (SyncDecision.create iss
        { description := mkDescription e.description e.id
          date := d
          durationMinutes := e.durationMinutes
          workTypeId := e.type.bind wt })) := by
  refine ⟨?_, ?_, ?_⟩
  · intro h
    refine ⟨stepEntry_noIssue hd h, ?_⟩
    intro dry rest
    rw [processEntries_cons_noIssue (stepEntry_noIssue hd h)]
  · intro iss h hmem
    refine ⟨stepEntry_skip hd h hmem, ?_⟩
    intro dry rest
    rw [processEntries_cons_alreadySynced (stepEntry_skip hd h hmem)]
  · intro iss h hmem
    exact stepEntry_create hd h hmem

/-- C2 witness: the three branches at concrete entries. -/
theorem decision_algorithm_witness :
    stepEntry wtEmpty idxEmpty noIssueEntry = Except.ok SyncDecision.noIssue
  ∧ stepEntry wtEmpty idxWithGood goodEntry = Except.ok SyncDecision.alreadySynced
  ∧ stepEntry wtEmpty idxEmpty goodEntry = Except.ok (SyncDecision.create
      "AB-1".toList
      { description := mkDescription goodEntry.description goodEntry.id
        date := 0
        durationMinutes := goodEntry.durationMinutes
        workTypeId := goodEntry.type.bind wtEmpty }) := by
  refine ⟨?_, ?_, ?_⟩
  · exact ((decision_algorithm wtEmpty idxEmpty noIssueEntry 5 rfl).1 rfl).1
  · exact ((decision_algorithm wtEmpty idxWithGood goodEntry 0 rfl).2.1
      "AB-1".toList rfl (by decide)).1
  · exact (decision_algorithm wtEmpty idxEmpty goodEntry 0 rfl).2.2
      "AB-1".toList rfl (by decide)

/-! ### Claim C10: a missing start date aborts the loop -/

/-- C10: an entry with absent startDate makes the loop throw while computing
the display date — before the issueId check — so it yields no decision at
all and nothing after it is processed; entries before it (well-formed ones)
keep their decisions and posts. -/
theorem missing_start_aborts (wt : WorkTypeMap) (idx : MarkerIndex) (dry : Bool)
    (pre : List NormalizedEntry) (e : NormalizedEntry) (rest : List NormalizedEntry)
    (hpre : ∀ e' ∈ pre, e'.startDate ≠ none ∧ isMarkerShape e'.id = true
      ∧ extractInternalId e'.description = none)
    (he : e.startDate = none) :
    processEntries wt idx dry (pre ++ e :: rest) =
      ⟨(processEntries wt idx dry pre).decisions,
       (processEntries wt idx dry pre).posts, true⟩ := by
  induction pre with
  | nil =>
    rw [List.nil_append, processEntries_cons_error (stepEntry_none he)]
    simp [processEntries]
  | cons e' pre' ih =>
    obtain ⟨hsd, hshape, hfree⟩ := hpre e' (List.mem_cons_self _ _)
    have hpre' := fun x hx => hpre x (List.mem_cons_of_mem _ hx)
    cases hd : e'.startDate with
    | none => exact absurd hd hsd
    | some d =>
      rw [List.cons_append]
      cases hii : e'.issueId with
      | none =>
        rw [processEntries_cons_noIssue (stepEntry_noIssue hd hii),
          processEntries_cons_noIssue (stepEntry_noIssue hd hii), ih hpre']
      | some iss =>
        by_cases hmem : e'.id ∈ idx iss
        · rw [processEntries_cons_alreadySynced (stepEntry_skip hd hii hmem),
            processEntries_cons_alreadySynced (stepEntry_skip hd hii hmem), ih hpre']
        · cases dry with
          | true =>
            rw [processEntries_cons_create_dry (stepEntry_create hd hii hmem),
              processEntries_cons_create_dry (stepEntry_create hd hii hmem), ih hpre']
          | false =>
            have hM : hasMarker (mkPayload wt e' d).description = true :=
              hasMarker_mkDescription _ _ hshape
            rw [processEntries_cons_create_live (stepEntry_create hd hii hmem) hM,
              processEntries_cons_create_live (stepEntry_create hd hii hmem) hM,
              ih hpre']

/-- C10 witness: a well-formed entry, then a start-less one, then another
entry — the run keeps the first entry's outcome, drops everything from the
start-less entry on, and aborts. -/
theorem missing_start_aborts_witness :
    processEntries wtEmpty idxEmpty false ([goodEntry] ++ noStartEntry :: [goodEntry]) =
      ⟨(processEntries wtEmpty idxEmpty false [goodEntry]).decisions,
       (processEntries wtEmpty idxEmpty false [goodEntry]).posts, true⟩ :=
  missing_start_aborts wtEmpty idxEmpty false [goodEntry] noStartEntry [goodEntry]
    (by decide) rfl

/-! ### Claim C5: pagination termination and completeness -/

/-- C5: a short page stops the pagination immediately after it (one fetch per
full page plus the final short page); with a source giving exactly
`pageLimit` items on the first page and an empty second page, the loop
terminates after exactly 2 fetches and returns the first page, whatever
fuel ≥ 2 is allotted; the per-issue markers are exactly those extracted
from the returned items, items without a marker being silently ignored. -/
theorem pagination_two_pages (fetch : Nat → List WorkItem) (p1 : List WorkItem)
    (h1 : fetch 0 = p1) (hlen : p1.length = pageLimit)
    (h2 : fetch pageLimit = []) (fuel : Nat) (hfuel : 2 ≤ fuel) :
    getIssueWorkItems fetch fuel = some (p1, 2)
  ∧ ∀ m, m ∈ workItemMarkers p1 ↔
      ∃ it ∈ p1, extractInternalId (it.text.getD []) = some m := by
  constructor
  · obtain ⟨k, rfl⟩ : ∃ k, fuel = k + 2 := ⟨fuel - 2, by omega⟩
    unfold getIssueWorkItems
    show getIssueWorkItemsAux fetch (k + 1 + 1) 0 = some (p1, 2)
    simp only [getIssueWorkItemsAux, h1]
    rw [if_neg (by rw [hlen]; exact lt_irrefl _), Nat.zero_add, h2,
      if_pos (by decide)]
    simp
  · intro m
    simp [workItemMarkers, List.mem_filterMap]

/-- Work-log item used by the pagination witness, carrying a marker. -/
def pageItem : WorkItem := ⟨some "x [a1b2c3d4e5f6a7b8c9d0e1f2]".toList⟩

/-- A full first page of `pageLimit` identical items. -/
def bigPage : List WorkItem := List.replicate pageLimit pageItem

/-- Mocked issue source: a full page at offset 0, nothing afterwards. -/
def pagedFetch : Nat → List WorkItem := fun skip => if skip = 0 then bigPage else []

/-- C5 witness: the mocked source terminates after exactly 2 fetches with the
first page. -/
theorem pagination_two_pages_witness :
    getIssueWorkItems pagedFetch 2 = some (bigPage, 2) :=
  (pagination_two_pages pagedFetch bigPage rfl (by simp [bigPage]) rfl 2
    (le_refl 2)).1

/-! ### Claim C9: dry-run frame property -/

/-- C9, counterexample to the claim as stated: for a Create-eligible entry
whose id lacks the 24-character shape, a live run aborts on the
`assert.match` precondition and logs no decision, while a dry run skips the
assertion and logs the Create decision — so decisions/logs are not always
identical. -/
theorem dry_run_frame_cex :
    (processEntries wtEmpty idxEmpty true [badIdEntry]).decisions ≠
      (processEntries wtEmpty idxEmpty false [badIdEntry]).decisions := by
  decide

/-- C9 (amended): a dry run never issues a create network call, whatever the
entries; and provided every entry's id has the 24-character marker shape (so
no live run can trip the create assertion), the dry run's decisions and
abort behavior are identical to the live run's. -/
theorem dry_run_frame (wt : WorkTypeMap) (idx : MarkerIndex)
    (es : List NormalizedEntry) :
    (processEntries wt idx true es).posts = []
  ∧ ((∀ e ∈ es, isMarkerShape e.id = true) →
      (processEntries wt idx true es).decisions
          = (processEntries wt idx false es).decisions
      ∧ (processEntries wt idx true es).aborted
          = (processEntries wt idx false es).aborted) := by
  induction es with
  | nil => simp [processEntries]
  | cons e rest ih =>
    constructor
    · cases hsd : e.startDate with
      | none =>
        rw [processEntries_cons_error (stepEntry_none hsd)]
      | some d =>
        cases hii : e.issueId with
        | none =>
          rw [processEntries_cons_noIssue (stepEntry_noIssue hsd hii)]
          exact ih.1
        | some iss =>
          by_cases hmem : e.id ∈ idx iss
          · rw [processEntries_cons_alreadySynced (stepEntry_skip hsd hii hmem)]
            exact ih.1
          · rw [processEntries_cons_create_dry (stepEntry_create hsd hii hmem)]
            exact ih.1
    · intro hall
      have hrest := fun x hx => hall x (List.mem_cons_of_mem _ hx)
      have hshape := hall e (List.mem_cons_self _ _)
      cases hsd : e.startDate with
      | none =>
        rw [processEntries_cons_error (stepEntry_none hsd),
          processEntries_cons_error (stepEntry_none hsd)]
        exact ⟨rfl, rfl⟩
      | some d =>
        cases hii : e.issueId with
        | none =>
          rw [processEntries_cons_noIssue (stepEntry_noIssue hsd hii),
            processEntries_cons_noIssue (stepEntry_noIssue hsd hii)]
          obtain ⟨h1, h2⟩ := ih.2 hrest
          exact ⟨by rw [h1], by rw [h2]⟩
        | some iss =>
          by_cases hmem : e.id ∈ idx iss
          · rw [processEntries_cons_alreadySynced (stepEntry_skip hsd hii hmem),
              processEntries_cons_alreadySynced (stepEntry_skip hsd hii hmem)]
            obtain ⟨h1, h2⟩ := ih.2 hrest
            exact ⟨by rw [h1], by rw [h2]⟩
          · have hM : hasMarker (mkPayload wt e d).description = true :=
              hasMarker_mkDescription _ _ hshape
            rw [processEntries_cons_create_dry (stepEntry_create hsd hii hmem),
              processEntries_cons_create_live (stepEntry_create hsd hii hmem) hM]
            obtain ⟨h1, h2⟩ := ih.2 hrest
            exact ⟨by rw [h1], by rw [h2]⟩

/-- C9 witness: with one Create-eligible well-formed entry, dry-run posts
nothing while deciding exactly as the live run. -/
theorem dry_run_frame_witness :
    (processEntries wtEmpty idxEmpty true [goodEntry]).posts = []
  ∧ (processEntries wtEmpty idxEmpty true [goodEntry]).decisions
      = (processEntries wtEmpty idxEmpty false [goodEntry]).decisions := by
  refine ⟨(dry_run_frame wtEmpty idxEmpty [goodEntry]).1, ?_⟩
  exact ((dry_run_frame wtEmpty idxEmpty [goodEntry]).2 (by decide)).1

/-! ### Claim C1: idempotence across runs -/

/-- Core induction for idempotence: a second live run against any index that
contains the first run's index and covers the marker of every payload the
first run posted issues no create call and decides no entry Create. -/
theorem second_run_no_creates (wt : WorkTypeMap) (idx1 idx2 : MarkerIndex)
    (es : List NormalizedEntry)
    (hg : ∀ e ∈ es, isMarkerShape e.id = true ∧ extractInternalId e.description = none)
    (hmono : ∀ iss m, m ∈ idx1 iss → m ∈ idx2 iss)
    (hposts : ∀ iss p, (iss, p) ∈ (processEntries wt idx1 false es).posts →
      ∀ m, extractInternalId p.description = some m → m ∈ idx2 iss) :
    (processEntries wt idx2 false es).posts = []
  ∧ ∀ d ∈ (processEntries wt idx2 false es).decisions, d.isCreate = false := by
  induction es with
  | nil => simp [processEntries]
  | cons e rest ih =>
    obtain ⟨hshape, hfree⟩ := hg e (List.mem_cons_self _ _)
    have hgr := fun x hx => hg x (List.mem_cons_of_mem _ hx)
    cases hsd : e.startDate with
    | none =>
      rw [processEntries_cons_error (stepEntry_none hsd)]
      simp
    | some d =>
      cases hii : e.issueId with
      | none =>
        rw [processEntries_cons_noIssue (stepEntry_noIssue hsd hii)]
        have hposts' : ∀ iss p, (iss, p) ∈ (processEntries wt idx1 false rest).posts →
            ∀ m, extractInternalId p.description = some m → m ∈ idx2 iss := by
          intro iss p hp m hm
          refine hposts iss p ?_ m hm
          rw [processEntries_cons_noIssue (stepEntry_noIssue hsd hii)]
          exact hp
        obtain ⟨ha, hb⟩ := ih hgr hposts'
        refine ⟨ha, ?_⟩
        intro dd hdd
        rcases List.mem_cons.mp hdd with h | h
        · rw [h]
          rfl
        · exact hb dd h
      | some iss =>
        have hin2 : e.id ∈ idx2 iss := by
          by_cases hmem : e.id ∈ idx1 iss
          · exact hmono iss _ hmem
          · have hM : hasMarker (mkPayload wt e d).description = true :=
              hasMarker_mkDescription _ _ hshape
            have hmem1 : (iss, mkPayload wt e d)
                ∈ (processEntries wt idx1 false (e :: rest)).posts := by
              rw [processEntries_cons_create_live (stepEntry_create hsd hii hmem) hM]
              exact List.mem_cons_self _ _
            exact hposts iss _ hmem1 e.id
              (extract_mkDescription _ _ hshape hfree)
        rw [processEntries_cons_alreadySynced (stepEntry_skip hsd hii hin2)]
        have hposts' : ∀ iss' p, (iss', p) ∈ (processEntries wt idx1 false rest).posts →
            ∀ m, extractInternalId p.description = some m → m ∈ idx2 iss' := by
          intro iss' p hp m hm
          refine hposts iss' p ?_ m hm
          by_cases hmem : e.id ∈ idx1 iss
          · rw [processEntries_cons_alreadySynced (stepEntry_skip hsd hii hmem)]
            exact hp
          · rw [processEntries_cons_create_live (stepEntry_create hsd hii hmem)
              (hasMarker_mkDescription _ _ hshape)]
            exact List.mem_cons_of_mem _ hp
        obtain ⟨ha, hb⟩ := ih hgr hposts'
        refine ⟨ha, ?_⟩
        intro dd hdd
        rcases List.mem_cons.mp hdd with h | h
        · rw [h]
          rfl
        · exact hb dd h

/-- C1, counterexample to the claim as stated: an entry whose description
carries a foreign bracketed 24-character token is re-created on the second
run — the marker extracted from the work-log item created by run 1 is the
description's leftmost token, not the entry's id. -/
theorem sync_twice_idempotent_cex :
    (runSync (applyPosts trEmpty (runSync trEmpty wtEmpty false [foreignMarkerEntry]).posts)
        wtEmpty false [foreignMarkerEntry]).posts ≠ [] := by
  decide

/-- C1 (amended): for entries whose ids have the 24-character
lowercase-alphanumeric shape and whose descriptions contain no bracketed
marker, running the sync twice — the items created by run 1 visible to run
2's marker indexing — issues zero create calls on the second run, and every
entry decided in run 2 is decided NoIssue or AlreadySynced, never Create. -/
theorem sync_twice_idempotent (tr : Tracker) (wt : WorkTypeMap)
    (es : List NormalizedEntry)
    (hg : ∀ e ∈ es, isMarkerShape e.id = true ∧ extractInternalId e.description = none) :
    (runSync (applyPosts tr (runSync tr wt false es).posts) wt false es).posts = []
  ∧ ∀ d ∈ (runSync (applyPosts tr (runSync tr wt false es).posts) wt false es).decisions,
      d.isCreate = false := by
  refine second_run_no_creates wt (indexOf tr)
    (indexOf (applyPosts tr (runSync tr wt false es).posts)) es hg ?_ ?_
  · intro iss m hm
    show m ∈ workItemMarkers (applyPosts tr (runSync tr wt false es).posts iss)
    unfold applyPosts workItemMarkers
    rw [List.filterMap_append]
    exact List.mem_append_left _ hm
  · intro iss p hp m hm
    show m ∈ workItemMarkers (applyPosts tr (runSync tr wt false es).posts iss)
    unfold applyPosts workItemMarkers
    rw [List.filterMap_append]
    refine List.mem_append_right _ ?_
    rw [List.mem_filterMap]
    refine ⟨WorkItem.mk (some p.description), ?_, by simpa using hm⟩
    rw [List.mem_map]
    refine ⟨(iss, p), ?_, rfl⟩
    rw [List.mem_filter]
    exact ⟨hp, by simp⟩

/-- C1 witness: one well-formed entry against an empty tracker — run 1
creates it, run 2 posts nothing. -/
theorem sync_twice_idempotent_witness :
    (runSync (applyPosts trEmpty (runSync trEmpty wtEmpty false [goodEntry]).posts)
        wtEmpty false [goodEntry]).posts = [] :=
  (sync_twice_idempotent trEmpty wtEmpty [goodEntry] (by decide)).1

end TimeSync
